import Mathlib

/-!
Shallow embedding of the betting-engine signal pipeline:
feature plugins (src/plugins.py), the unified feature engine
(src/features.py), the hierarchical calibrator (src/ml_engine.py),
the decision engine (src/strategy.py) and the priced-observation
schema (src/schemas.py).  Python float arithmetic is embedded as
exact arithmetic: rational constants stay in ℚ, and the
transcendental parts (np.log / np.exp) are embedded over ℝ.
-/

/-- Does `pat` occur at the start of `s`? -/
def startsWith : List Char → List Char → Bool
  | _, [] => true
  | [], _ :: _ => false
  | a :: s, b :: p => a == b && startsWith s p

/-- Does `pat` occur as a contiguous run inside `s`? -/
def containsSub (pat : List Char) : List Char → Bool
  | [] => startsWith [] pat
  | a :: s => startsWith (a :: s) pat || containsSub pat s

/-- Substring test over the characters of the strings.  Embeds the
Python expression `pat in s`. -/
def containsStr (s pat : String) : Bool :=
  containsSub pat.data s.data

/-- Market family literal from schemas.py. -/
inductive MarketFamily where
  | MAIN | PERIOD | PROP | FUTURE
deriving DecidableEq

/-- Priced observation, from `UnifiedBet` in schemas.py.  `timestamp`
is seconds (Python datetime differences are taken via
`total_seconds()`). -/
structure UnifiedBet where
  event_id : String
  sport_key : String
  selection : String
  market_key : String
  market_family : MarketFamily
  handicap : Option ℚ
  bookmaker : String
  odds_decimal : ℚ
  timestamp : ℚ
  is_player_prop : Bool
  player_name : Option String
deriving DecidableEq

/-- Derived attribute `implied_prob` of `UnifiedBet` (schemas.py):
`1.0 / odds_decimal if odds_decimal > 0 else 0.0`. -/
def UnifiedBet.implied_prob (b : UnifiedBet) : ℚ :=
  if b.odds_decimal > 0 then 1 / b.odds_decimal else 0

/-- The static SHARPNESS weight table of plugins.py; unknown books
default to 0.5 (`SHARPNESS.get(book, 0.5)`). -/
def sharpness (book : String) : ℚ :=
  if book = "pinnacle" then 1
  else if book = "circa" then 9/10
  else if book = "betonlineag" then 4/5
  else if book = "draftkings" then 3/5
  else if book = "fanduel" then 3/5
  else if book = "mgm" then 1/2
  else 1/2

/-- Embeds `to_logit` from plugins.py: clip to [0.001, 0.999] then log-odds.
`np.clip(p, lo, hi)` is `max lo (min hi p)`. -/
noncomputable def to_logit (p : ℝ) : ℝ :=
  let q := max (1/1000) (min (999/1000) p)
  Real.log (q / (1 - q))

/-- Embeds `to_prob` from plugins.py: the logistic sigmoid. -/
noncomputable def to_prob (l : ℝ) : ℝ :=
  1 / (1 + Real.exp (-l))

/-- The record returned by `calculate_features` of either plugin. -/
structure PluginOutput where
  p_fair_consensus : ℝ
  velocity : ℝ
  clv_projected : ℝ
  player_availability_score : ℝ
  context_uncertainty_penalty : ℝ

/-- Event-scoped context view handed to a plugin by the feature engine:
`{market_snapshot: ..., injuries: ...}`.  The market snapshot is an
ordered book → odds map; the injury report maps player name to
(status, reliability). -/
structure EventContext where
  market_snapshot : List (String × ℚ)
  injuries : List (String × String × ℚ)

/-- Second-most-recent element of a history buffer (`history[-2]` in
plugins.py); `none` when fewer than two entries exist. -/
def penult (l : List UnifiedBet) : Option UnifiedBet :=
  l.reverse.tail.head?

/-- The fold over `market_snapshot.items()` in
`MainMarketPlugin.calculate_features`: books equal to the execution
book or with odds ≤ 1.0 are skipped, every other book adds
`w * to_logit(1/odds)` to the weighted sum and `w` to the total
weight. -/
noncomputable def snapshotFold (bk : String) (snapshot : List (String × ℚ))
    (init : ℝ × ℝ) : ℝ × ℝ :=
  snapshot.foldl (fun acc p =>
    if p.1 = bk then acc
    else if p.2 ≤ 1 then acc
    else (acc.1 + (sharpness p.1 : ℝ) * to_logit (((1 / p.2 : ℚ) : ℝ)),
          acc.2 + (sharpness p.1 : ℝ))) init

/-- Embeds `MainMarketPlugin.calculate_features` from plugins.py. -/
noncomputable def mainCalculate (bet : UnifiedBet) (history : List UnifiedBet)
    (ctx : EventContext) : PluginOutput :=
  let w_dk : ℝ := (sharpness bet.bookmaker : ℝ)
  let start : ℝ × ℝ := (w_dk * to_logit ((bet.implied_prob : ℝ)), w_dk)
  let s := snapshotFold bet.bookmaker ctx.market_snapshot start
  let avg_logit : ℝ :=
    if s.2 > 0 then s.1 / s.2 else to_logit ((bet.implied_prob : ℝ))
  let velocity : ℝ :=
    match penult history with
    | none => 0
    | some prev =>
      let dt : ℚ := (bet.timestamp - prev.timestamp) / 3600
      if dt > 0 then
        (to_logit ((bet.implied_prob : ℝ)) - to_logit ((prev.implied_prob : ℝ))) / (dt : ℝ)
      else 0
  let clv_proj := to_prob (avg_logit + velocity * 1)
  ⟨to_prob avg_logit, velocity, clv_proj, 1, 0⟩

/-- Embeds `injury_report.get(player, {}).get('status', 'Healthy')` and
`.get('reliability', 0.5)`: look up the player (when any) in the
injury report, defaulting to a healthy player with reliability 0.5. -/
def lookupInjury (injuries : List (String × String × ℚ))
    (player : Option String) : String × ℚ :=
  match player with
  | none => ("Healthy", 1/2)
  | some p =>
    match injuries.lookup p with
    | some v => v
    | none => ("Healthy", 1/2)

/-- Embeds `PropMarketPlugin.calculate_features` from plugins.py. -/
noncomputable def propCalculate (bet : UnifiedBet) (_history : List UnifiedBet)
    (ctx : EventContext) : PluginOutput :=
  let inj := lookupInjury ctx.injuries bet.player_name
  let status := inj.1
  let source_reliability := inj.2
  let availability_logit : ℝ := 3
  let availability_logit :=
    if status = "Questionable" then availability_logit - 5/2
    else if status = "Doubtful" then availability_logit - 4
    else if status = "Limited Practice" then availability_logit - 1/2
    else availability_logit
  let p_availability := to_prob availability_logit
  let p_adjusted : ℝ :=
    if containsStr bet.selection "Over" = true ∧
        (status = "Questionable" ∨ status = "Limited Practice") then
      (bet.implied_prob : ℝ) * (4/5 + 1/5 * p_availability)
    else (bet.implied_prob : ℝ)
  ⟨p_adjusted, 0, p_adjusted, p_availability,
    (1 - p_availability) * ((source_reliability : ℝ))⟩

/-- Embeds the `get_plugin` dispatch of plugins.py: `PROP` gets the prop plugin,
every other family the main-market plugin. -/
noncomputable def calcFeatures (fam : MarketFamily) :
    UnifiedBet → List UnifiedBet → EventContext → PluginOutput :=
  match fam with
  | .PROP => propCalculate
  | _ => mainCalculate

/-- A raw snapshot row as consumed by
`UnifiedFeatureEngine.process_snapshots` (features.py): one DataFrame
row.  `sport_key` is optional (`row.get('sport_key', 'unknown')`). -/
structure Row where
  event_id : String
  sport_key : Option String
  selection : String
  market_key : String
  handicap : Option ℚ
  bookmaker : String
  odds_decimal : ℚ
  timestamp : ℚ
deriving DecidableEq

/-- Embeds `UnifiedFeatureEngine.classify_market` from features.py. -/
def classify_market (market_key : String) : MarketFamily :=
  if containsStr market_key "player" then .PROP
  else if containsStr market_key "period" ∨ containsStr market_key "q1" then .PERIOD
  else if containsStr market_key "futures" then .FUTURE
  else .MAIN

/-- The `UnifiedBet(...)` construction inside `process_snapshots`. -/
def mkBet (r : Row) : UnifiedBet :=
  let fam := classify_market r.market_key
  { event_id := r.event_id
    sport_key := r.sport_key.getD "unknown"
    selection := r.selection
    market_key := r.market_key
    market_family := fam
    handicap := r.handicap
    bookmaker := r.bookmaker
    odds_decimal := r.odds_decimal
    timestamp := r.timestamp
    is_player_prop := fam = .PROP
    player_name := if fam = .PROP then some r.selection else none }

/-- Rendering of the `handicap` field inside the f-string buffer key
(`None` for a missing handicap, the decimal text otherwise). -/
def handicapRepr : Option ℚ → String
  | none => "None"
  | some q => toString q

/-- The history-buffer key
`f"{event_id}_{market_key}_{selection}_{handicap}"`. -/
def instrumentKey (b : UnifiedBet) : String :=
  b.event_id ++ "_" ++ b.market_key ++ "_" ++ b.selection ++ "_" ++
    handicapRepr b.handicap

/-- The per-instrument history buffers (`self.history_buffer`); a
missing key behaves as the empty list. -/
def Buffers : Type := String → List UnifiedBet

/-- Fresh engine state: every buffer empty. -/
def emptyBuffers : Buffers := fun _ => []

/-- Pointwise buffer update. -/
def updateBuf (buf : Buffers) (k : String) (v : List UnifiedBet) : Buffers :=
  fun s => if s = k then v else buf s

/-- Buffer maintenance of `process_snapshots`:
`append(bet)` then `if len > 5: pop(0)`. -/
def evictAppend (l : List UnifiedBet) (b : UnifiedBet) : List UnifiedBet :=
  if (l ++ [b]).length > 5 then (l ++ [b]).drop 1 else l ++ [b]

/-- The externally supplied context (`context_data` in
features.py/main.py): per-event live odds snapshots and per-event
injury reports. -/
structure ContextData where
  live_odds : List (String × List (String × ℚ))
  injuries : List (String × List (String × String × ℚ))

/-- Empty context (`context_data = {}`). -/
def emptyContext : ContextData := ⟨[], []⟩

/-- Feature record emitted per observation by `process_snapshots`. -/
structure FeatureRecord where
  event_id : String
  market_family : MarketFamily
  selection : String
  book : String
  timestamp : ℚ
  p_implied : ℚ
  p_fair_consensus : ℝ
  velocity : ℝ
  context_uncertainty : ℝ

/-- Assembly of the output dictionary of `process_snapshots`. -/
def mkRecord (bet : UnifiedBet) (feats : PluginOutput) : FeatureRecord :=
  ⟨bet.event_id, bet.market_family, bet.selection, bet.bookmaker,
    bet.timestamp, bet.implied_prob, feats.p_fair_consensus,
    feats.velocity, feats.context_uncertainty_penalty⟩

/-- One loop iteration of `process_snapshots`: classify, build the
bet, form the event-scoped context, call the plugin on the buffer as
it stands BEFORE this observation, then append and evict. -/
noncomputable def stepSnap (ctx : ContextData) (buf : Buffers) (r : Row) :
    Buffers × FeatureRecord :=
  let bet := mkBet r
  let key := instrumentKey bet
  let evtCtx : EventContext :=
    ⟨(ctx.live_odds.lookup bet.event_id).getD [],
     (ctx.injuries.lookup bet.event_id).getD []⟩
  let feats := calcFeatures bet.market_family bet (buf key) evtCtx
  (updateBuf buf key (evictAppend (buf key) bet), mkRecord bet feats)

/-- The iteration of `process_snapshots` over the (already sorted)
rows, threading the mutable buffers. -/
noncomputable def processRows (ctx : ContextData) :
    Buffers → List Row → Buffers × List FeatureRecord
  | buf, [] => (buf, [])
  | buf, r :: rs =>
    let s := stepSnap ctx buf r
    let rest := processRows ctx s.1 rs
    (rest.1, s.2 :: rest.2)

/-- Embeds `UnifiedFeatureEngine.process_snapshots`: sort rows by timestamp,
then iterate. -/
noncomputable def process_snapshots (ctx : ContextData) (buf : Buffers)
    (rows : List Row) : Buffers × List FeatureRecord :=
  processRows ctx buf
    (List.insertionSort (fun a b => a.timestamp ≤ b.timestamp) rows)

/-- Embeds `calculate_kelly_fraction` from features.py. -/
def calculate_kelly_fraction (prob decimal_odds fractional_kelly : ℚ) : ℚ :=
  if decimal_odds ≤ 1 then 0
  else
    let b := decimal_odds - 1
    let q := 1 - prob
    let f_star := (b * prob - q) / b
    max 0 f_star * fractional_kelly

/-- A candidate row consumed by `DecisionEngine.select_best_bet`
(strategy.py).  `model_prob` and `dk_price` are accessed with
`row[...]` (required); `clv_projected`, `p_implied` and
`context_uncertainty_penalty` with `row.get(...)` (optional). -/
structure Candidate where
  event_id : String
  selection : String
  model_prob : ℚ
  dk_price : ℚ
  clv_projected : Option ℚ
  p_implied : Option ℚ
  context_uncertainty_penalty : Option ℚ
deriving DecidableEq

/-- The result dictionary appended to `results` for a candidate that
passes all three gates. -/
structure BetRow where
  event_id : String
  selection : String
  odds : ℚ
  model_prob : ℚ
  ev : ℚ
  stake : ℚ
deriving DecidableEq

/-- The per-candidate loop body of `DecisionEngine.select_best_bet`:
Gate 1 (positive EV), Gate 2 (credible edge:
`row.get('clv_projected', 0) < row.get('p_implied', row.get('model_prob', 0))`),
Gate 3 (context uncertainty), then fractional-Kelly sizing capped by
`max_stake`.  Returns `none` when a gate rejects the candidate. -/
def evalCandidate (bankroll max_stake : ℚ) (c : Candidate) : Option BetRow :=
  let ev_percent := c.model_prob * c.dk_price - 1
  if ev_percent ≤ 0 then none
  else if c.clv_projected.getD 0 < c.p_implied.getD c.model_prob then none
  else if c.context_uncertainty_penalty.getD 0 > 1/2 ∧ ev_percent < 1/10 then
    none
  else
    let kelly_stake_pct := calculate_kelly_fraction c.model_prob c.dk_price (1/4)
    let dollar_stake := bankroll * kelly_stake_pct
    let final_stake := min dollar_stake max_stake
    some ⟨c.event_id, c.selection, c.dk_price, c.model_prob, ev_percent,
      final_stake⟩

/-- The `results` list built by `select_best_bet` before ranking. -/
def selectResults (bankroll max_stake : ℚ) (candidates : List Candidate) :
    List BetRow :=
  candidates.filterMap (evalCandidate bankroll max_stake)

/-- Embeds `results_df.sort_values(by='ev', ascending=False).iloc[0]`:
the passing candidate of maximal EV (`none` when nothing passes). -/
def bestByEv (results : List BetRow) : Option BetRow :=
  results.foldl (fun acc r =>
    match acc with
    | none => some r
    | some b => if r.ev > b.ev then some r else some b) none

/-- Embeds `DecisionEngine.select_best_bet` for an engine with the given
bankroll: `max_stake = bankroll * max_daily_stake_percent`
(default 0.05). -/
def select_best_bet (bankroll : ℚ) (candidates : List Candidate) :
    Option BetRow :=
  bestByEv (selectResults bankroll (bankroll * (5/100)) candidates)

/-- Model of `sklearn.isotonic.IsotonicRegression` as used by
ml_engine.py, parametric in the library's fitting routine `pava`
(the isotonic fit itself is external library code): constructed with
`y_min`/`y_max` bounds, it is unfitted until `fit` stores a mapping
whose outputs are clipped into `[y_min, y_max]`
(`y_min=0, y_max=1, out_of_bounds='clip'`); calling `predict` before
`fit` raises `NotFittedError`, embedded as `Except.error`. -/
structure Iso where
  y_min : ℚ
  y_max : ℚ
  fitted : Option (ℚ → ℚ)

/-- Embeds `IsotonicRegression(y_min=0, y_max=1, out_of_bounds='clip')`. -/
def Iso.fresh : Iso := ⟨0, 1, none⟩

/-- Embeds `iso.fit(X, y)` with the library fit routine `pava`. -/
def Iso.fitWith (pava : List (ℚ × ℚ) → ℚ → ℚ) (data : List (ℚ × ℚ))
    (iso : Iso) : Iso :=
  ⟨iso.y_min, iso.y_max, some (fun x => max iso.y_min (min iso.y_max (pava data x)))⟩

/-- Embeds `iso.predict([x])[0]`: raises when unfitted. -/
def Iso.predict (iso : Iso) (x : ℚ) : Except String ℚ :=
  match iso.fitted with
  | none => Except.error "NotFittedError"
  | some f => Except.ok (f x)

/-- A training row for `HierarchicalCalibrator.fit`. -/
structure CalRow where
  sport_key : String
  market_family : String
  p_fair_sharp : ℚ
  outcome : ℚ
deriving DecidableEq

/-- The bucket key `f"{sport}_{fam}"` of ml_engine.py. -/
def bucketKey (sport fam : String) : String := sport ++ "_" ++ fam

/-- The distinct `(sport_key, market_family)` pairs of a training
frame (`df.groupby(['sport_key', 'market_family'])`). -/
def groupPairs (df : List CalRow) : List (String × String) :=
  (df.map (fun r => (r.sport_key, r.market_family))).dedup

/-- The rows of one groupby group. -/
def groupRows (df : List CalRow) (p : String × String) : List CalRow :=
  df.filter (fun r => r.sport_key = p.1 ∧ r.market_family = p.2)

/-- Embeds the `HierarchicalCalibrator` state (ml_engine.py): per-bucket
calibrators, the global calibrator, and `min_samples_for_split`. -/
structure HierarchicalCalibrator where
  calibrators : List (String × Iso)
  global_calibrator : Iso
  min_samples_for_split : ℕ

/-- Embeds `HierarchicalCalibrator.__init__`: no buckets, an unfitted global
IsotonicRegression, split threshold 50. -/
def HierarchicalCalibrator.init : HierarchicalCalibrator :=
  ⟨[], Iso.fresh, 50⟩

/-- Training pairs `(p_fair_sharp, outcome)` of a list of rows. -/
def toXY (rows : List CalRow) : List (ℚ × ℚ) :=
  rows.map (fun r => (r.p_fair_sharp, r.outcome))

/-- One iteration of the groupby loop in `HierarchicalCalibrator.fit`:
a group with more than `n` rows gets a dedicated calibrator under the
key `f"{sport}_{fam}"`, a smaller group is skipped. -/
def bucketStep (pava : List (ℚ × ℚ) → ℚ → ℚ) (n : ℕ) (df : List CalRow)
    (acc : List (String × Iso)) (p : String × String) : List (String × Iso) :=
  if (groupRows df p).length > n then
    acc ++ [(bucketKey p.1 p.2, Iso.fresh.fitWith pava (toXY (groupRows df p)))]
  else acc

/-- Embeds `HierarchicalCalibrator.fit(df)`: fit the global calibrator on all
rows, then fit a dedicated bucket calibrator for every
`(sport_key, market_family)` group with more than
`min_samples_for_split` rows, keyed by `f"{sport}_{fam}"`. -/
def HierarchicalCalibrator.fit (pava : List (ℚ × ℚ) → ℚ → ℚ)
    (cal : HierarchicalCalibrator) (df : List CalRow) :
    HierarchicalCalibrator :=
  ⟨(groupPairs df).foldl (bucketStep pava cal.min_samples_for_split df)
      cal.calibrators,
   cal.global_calibrator.fitWith pava (toXY df),
   cal.min_samples_for_split⟩

/-- Embeds `HierarchicalCalibrator.predict(row)`: the bucket calibrator when
the key is present, else the global calibrator. -/
def HierarchicalCalibrator.predict (cal : HierarchicalCalibrator)
    (row : CalRow) : Except String ℚ :=
  let key := bucketKey row.sport_key row.market_family
  match cal.calibrators.lookup key with
  | some iso => iso.predict row.p_fair_sharp
  | none => cal.global_calibrator.predict row.p_fair_sharp

/-! ### Helper lemmas -/

lemma to_prob_pos (l : ℝ) : 0 < to_prob l := by
  unfold to_prob
  positivity

lemma to_prob_lt_one (l : ℝ) : to_prob l < 1 := by
  unfold to_prob
  rw [div_lt_one (by positivity)]
  linarith [Real.exp_pos (-l)]

lemma to_prob_mem_unit (l : ℝ) : 0 ≤ to_prob l ∧ to_prob l ≤ 1 :=
  ⟨(to_prob_pos l).le, (to_prob_lt_one l).le⟩

lemma sharpness_pos (book : String) : 0 < sharpness book := by
  unfold sharpness
  split_ifs <;> norm_num

/-- The logit/sigmoid round trip is the identity inside the clipping
range. -/
lemma to_prob_to_logit (q : ℚ) (qlo : 1/1000 ≤ q) (qhi : q ≤ 999/1000) :
    to_prob (to_logit ((q : ℚ) : ℝ)) = ((q : ℚ) : ℝ) := by
  set p : ℝ := ((q : ℚ) : ℝ) with hp
  have hlo : (1:ℝ)/1000 ≤ p := by
    rw [hp]
    have h2 : (((1/1000 : ℚ)) : ℝ) ≤ ((q : ℚ) : ℝ) := Rat.cast_le.mpr qlo
    push_cast at h2
    exact h2
  have hhi : p ≤ (999:ℝ)/1000 := by
    rw [hp]
    have h2 : ((q : ℚ) : ℝ) ≤ (((999/1000 : ℚ)) : ℝ) := Rat.cast_le.mpr qhi
    push_cast at h2
    exact h2
  have hp0 : 0 < p := lt_of_lt_of_le (by norm_num) hlo
  have hp1 : p < 1 := lt_of_le_of_lt hhi (by norm_num)
  have hclip : max (1/1000) (min (999/1000) p) = p := by
    rw [min_eq_right hhi, max_eq_right hlo]
  unfold to_logit to_prob
  rw [hclip]
  rw [Real.exp_neg, Real.exp_log (div_pos hp0 (by linarith))]
  field_simp

lemma implied_prob_nonneg (b : UnifiedBet) : 0 ≤ b.implied_prob := by
  unfold UnifiedBet.implied_prob
  split
  · next h => exact le_of_lt (div_pos one_pos h)
  · exact le_refl 0

lemma penult_eq_none_of_short (l : List UnifiedBet) (h : l.length ≤ 1) :
    penult l = none := by
  unfold penult
  match l, h with
  | [], _ => rfl
  | [a], _ => rfl

/-- A successful `lookup` result is a value stored in the list. -/
lemma lookup_some_mem {β : Type} (l : List (String × β)) (k : String) (v : β)
    (h : l.lookup k = some v) : ∃ kv ∈ l, kv.2 = v := by
  induction l with
  | nil => simp [List.lookup] at h
  | cons p l ih =>
    rw [List.lookup] at h
    by_cases hk : (k == p.1) = true
    · rw [hk] at h
      exact ⟨p, List.mem_cons_self p l, Option.some.inj h⟩
    · rw [Bool.not_eq_true] at hk
      rw [hk] at h
      obtain ⟨kv, hmem, hv⟩ := ih h
      exact ⟨kv, List.mem_cons_of_mem p hmem, hv⟩

/-! ### Concrete inputs used by witnesses and counterexamples -/

/-- An event context with no market snapshot and no injury report. -/
def ctxE : EventContext := ⟨[], []⟩

/-- A concrete priced observation: decimal odds 2.00 on a main
market. -/
def betA : UnifiedBet :=
  ⟨"e1", "nba", "Home", "h2h", .MAIN, none, "draftkings", 2, 0, false, none⟩

/-- A concrete candidate whose projected CLV (0.55) lies strictly
between `p_implied` (0.50) and `model_prob` (0.60). -/
def candC1 : Candidate :=
  ⟨"e1", "Home", 3/5, 2, some (11/20), some (1/2), some 0⟩

/-! ### C1: Gate 2 baseline -/

/-- C1 counterexample: the candidate `candC1` satisfies
`clv_projected < max(p_implied, model_prob)` — so the claim says
Gate 2 rejects it — yet the decision engine does not reject it: it
appears in the results list and is returned as the best bet. -/
theorem c1_counterexample :
    (selectResults 10000 500 [candC1]).length = 1 ∧
    (select_best_bet 10000 [candC1]).isSome = true ∧
    candC1.clv_projected.getD 0 <
      max (candC1.p_implied.getD candC1.model_prob) candC1.model_prob := by
  refine ⟨?_, ?_, ?_⟩ <;>
    norm_num [selectResults, select_best_bet, bestByEv, evalCandidate,
      candC1, calculate_kelly_fraction, List.filterMap_cons, List.filterMap_nil,
      List.foldl]

/-- C1 amended: for a candidate that passes Gate 1 and is not
rejected by Gate 3, Gate 2 rejects it exactly when `clv_projected`
(defaulting to 0) is below `p_implied` when present, else below
`model_prob` — not below `max(p_implied, model_prob)`. -/
theorem c1_gate2_exact (bankroll max_stake : ℚ) (c : Candidate)
    (h1 : 0 < c.model_prob * c.dk_price - 1)
    (h2 : c.context_uncertainty_penalty.getD 0 ≤ 1/2 ∨
      1/10 ≤ c.model_prob * c.dk_price - 1) :
    evalCandidate bankroll max_stake c ≠ none ↔
      c.p_implied.getD c.model_prob ≤ c.clv_projected.getD 0 := by
  unfold evalCandidate
  rw [if_neg (not_le.mpr h1)]
  by_cases hg : c.clv_projected.getD 0 < c.p_implied.getD c.model_prob
  · rw [if_pos hg]
    simp [not_le.mpr hg]
  · rw [if_neg hg]
    have hg3 : ¬(c.context_uncertainty_penalty.getD 0 > 1/2 ∧
        c.model_prob * c.dk_price - 1 < 1/10) := by
      rcases h2 with h | h
      · exact fun hc => absurd hc.1 (not_lt.mpr h)
      · exact fun hc => absurd hc.2 (not_lt.mpr h)
    rw [if_neg hg3]
    simp [not_lt.mp hg]

/-- C1 witness: `c1_gate2_exact` applied at a concrete candidate. -/
theorem c1_gate2_exact_witness :
    (0 < candC1.model_prob * candC1.dk_price - 1) ∧
    (evalCandidate 10000 500 candC1 ≠ none ↔
      candC1.p_implied.getD candC1.model_prob ≤ candC1.clv_projected.getD 0) :=
  ⟨by norm_num [candC1],
   c1_gate2_exact 10000 500 candC1 (by norm_num [candC1])
     (Or.inl (by norm_num [candC1]))⟩

/-! ### C2: predict before fit -/

/-- C2: on a freshly constructed calibrator (no `fit` has run, e.g.
because no completed training rows existed), `predict` does not
return the raw input probability: it raises the library's
NotFittedError, because the unfitted global IsotonicRegression is
invoked unguarded. -/
theorem c2_unfitted_predict_raises (row : CalRow) :
    HierarchicalCalibrator.init.predict row = Except.error "NotFittedError" ∧
    HierarchicalCalibrator.init.predict row ≠ Except.ok row.p_fair_sharp := by
  constructor
  · rfl
  · intro h
    simp [HierarchicalCalibrator.init, HierarchicalCalibrator.predict,
      Iso.fresh, Iso.predict] at h

/-! ### C9: Kelly non-negativity -/

/-- C9: `calculate_kelly_fraction` (at the default fractional Kelly
of 0.25) returns 0 whenever the odds are ≤ 1 or the raw Kelly
fraction `(b*prob - (1-prob))/b` is negative, and its value is never
negative. -/
theorem c9_kelly_nonneg :
    (∀ prob d : ℚ, (d ≤ 1 ∨ ((d - 1) * prob - (1 - prob)) / (d - 1) < 0) →
      calculate_kelly_fraction prob d (1/4) = 0) ∧
    (∀ prob d : ℚ, 0 ≤ calculate_kelly_fraction prob d (1/4)) := by
  constructor
  · intro prob d h
    unfold calculate_kelly_fraction
    rcases h with h | h
    · rw [if_pos h]
    · by_cases hd : d ≤ 1
      · rw [if_pos hd]
      · rw [if_neg hd]
        simp only
        rw [max_eq_left h.le, zero_mul]
  · intro prob d
    unfold calculate_kelly_fraction
    split
    · exact le_refl 0
    · exact mul_nonneg (le_max_left 0 _) (by norm_num)

/-- C9 witness: `c9_kelly_nonneg` at concrete inputs. -/
theorem c9_kelly_nonneg_witness :
    ((1 : ℚ) ≤ 1 ∨ (((1:ℚ) - 1) * (1/2) - (1 - 1/2)) / ((1:ℚ) - 1) < 0) ∧
    calculate_kelly_fraction (1/2) 1 (1/4) = 0 ∧
    0 ≤ calculate_kelly_fraction (1/2) 1 (1/4) :=
  ⟨Or.inl (le_refl 1),
   c9_kelly_nonneg.1 (1/2) 1 (Or.inl (le_refl 1)),
   c9_kelly_nonneg.2 (1/2) 1⟩

/-! ### C10: implied probability is total -/

/-- C10: the derived `implied_prob` of a priced observation equals
`1/odds_decimal` when `odds_decimal > 0` (and is a genuine inverse,
so no division error can occur), and equals 0 when
`odds_decimal ≤ 0`. -/
theorem c10_implied_prob (b : UnifiedBet) :
    (0 < b.odds_decimal →
      b.implied_prob = 1 / b.odds_decimal ∧
      b.implied_prob * b.odds_decimal = 1) ∧
    (b.odds_decimal ≤ 0 → b.implied_prob = 0) := by
  constructor
  · intro h
    unfold UnifiedBet.implied_prob
    rw [if_pos h]
    exact ⟨rfl, one_div_mul_cancel (ne_of_gt h)⟩
  · intro h
    unfold UnifiedBet.implied_prob
    rw [if_neg (not_lt.mpr h)]

/-- C10 witness: `c10_implied_prob` at a concrete observation with
odds 2.00. -/
theorem c10_implied_prob_witness :
    (0 < betA.odds_decimal) ∧
    betA.implied_prob = 1 / betA.odds_decimal ∧
    betA.implied_prob * betA.odds_decimal = 1 :=
  ⟨by norm_num [betA], (c10_implied_prob betA).1 (by norm_num [betA])⟩

/-! ### C6: empty snapshot reduces to the single source -/

/-- C6: when the market snapshot is empty, the main-market plugin's
`p_fair_consensus` is the sigmoid of the execution book's own logit,
and therefore equals the implied probability itself whenever that
probability lies in the clipping range [0.001, 0.999]. -/
theorem c6_single_source (bet : UnifiedBet) (history : List UnifiedBet)
    (ctx : EventContext) (hempty : ctx.market_snapshot = []) :
    (mainCalculate bet history ctx).p_fair_consensus =
      to_prob (to_logit ((bet.implied_prob : ℝ))) ∧
    (1/1000 ≤ bet.implied_prob → bet.implied_prob ≤ 999/1000 →
      (mainCalculate bet history ctx).p_fair_consensus =
        ((bet.implied_prob : ℚ) : ℝ)) := by
  have hw : (0:ℝ) < ((sharpness bet.bookmaker : ℚ) : ℝ) := by
    exact_mod_cast sharpness_pos bet.bookmaker
  have hmain : (mainCalculate bet history ctx).p_fair_consensus =
      to_prob (to_logit ((bet.implied_prob : ℝ))) := by
    unfold mainCalculate
    rw [hempty]
    simp only [snapshotFold, List.foldl_nil]
    rw [if_pos hw, mul_div_cancel_left₀ _ (ne_of_gt hw)]
  refine ⟨hmain, fun hlo hhi => ?_⟩
  rw [hmain, to_prob_to_logit bet.implied_prob hlo hhi]

/-- C6 witness: `c6_single_source` at a concrete observation with
odds 2.00 and an empty snapshot. -/
theorem c6_single_source_witness :
    ctxE.market_snapshot = [] ∧
    1/1000 ≤ betA.implied_prob ∧ betA.implied_prob ≤ 999/1000 ∧
    (mainCalculate betA [] ctxE).p_fair_consensus =
      ((betA.implied_prob : ℚ) : ℝ) :=
  ⟨rfl, by norm_num [betA, UnifiedBet.implied_prob],
   by norm_num [betA, UnifiedBet.implied_prob],
   (c6_single_source betA [] ctxE rfl).2
     (by norm_num [betA, UnifiedBet.implied_prob])
     (by norm_num [betA, UnifiedBet.implied_prob])⟩

/-! ### C5: probability bounds -/

lemma shrink_factor_bounds (l : ℝ) :
    0 ≤ 4/5 + 1/5 * to_prob l ∧ 4/5 + 1/5 * to_prob l ≤ 1 := by
  have h1 := to_prob_pos l
  have h2 := to_prob_lt_one l
  constructor <;> nlinarith

lemma clamp01_bounds (a : ℚ) :
    0 ≤ max 0 (min 1 a) ∧ max 0 (min 1 a) ≤ 1 :=
  ⟨le_max_left 0 _, max_le (by norm_num) (min_le_left 1 a)⟩

/-- Every bucket calibrator produced by the groupby fold of `fit` is a
freshly fitted, [0,1]-clipped isotonic model (provided every entry of
the starting accumulator is). -/
lemma foldl_buckets_mem (pava : List (ℚ × ℚ) → ℚ → ℚ) (n : ℕ) (df : List CalRow) :
    ∀ (ps : List (String × String)) (acc : List (String × Iso)),
      (∀ kv ∈ acc, ∃ data, kv.2 = Iso.fresh.fitWith pava data) →
      ∀ kv ∈ ps.foldl (bucketStep pava n df) acc,
        ∃ data, kv.2 = Iso.fresh.fitWith pava data := by
  intro ps
  induction ps with
  | nil =>
    intro acc hacc kv hkv
    exact hacc kv hkv
  | cons p ps ih =>
    intro acc hacc kv hkv
    rw [List.foldl_cons] at hkv
    refine ih (bucketStep pava n df acc p) ?_ kv hkv
    intro kv2 hkv2
    unfold bucketStep at hkv2
    by_cases hlen : (groupRows df p).length > n
    · rw [if_pos hlen] at hkv2
      rcases List.mem_append.mp hkv2 with h | h
      · exact hacc kv2 h
      · rw [List.mem_singleton] at h
        exact ⟨toXY (groupRows df p), by rw [h]⟩
    · rw [if_neg hlen] at hkv2
      exact hacc kv2 hkv2

/-- All bucket calibrators of a calibrator fitted from `init` are
fresh fitted isotonic models. -/
lemma fit_entry_clipped (pava : List (ℚ × ℚ) → ℚ → ℚ) (df : List CalRow) :
    ∀ kv ∈ (HierarchicalCalibrator.init.fit pava df).calibrators,
      ∃ data, kv.2 = Iso.fresh.fitWith pava data := by
  unfold HierarchicalCalibrator.fit HierarchicalCalibrator.init
  exact foldl_buckets_mem pava 50 df (groupPairs df) []
    (fun kv hkv => absurd hkv (List.not_mem_nil kv))

/-- A fresh fitted isotonic model only returns values in [0,1]. -/
lemma fitted_predict_bounds (pava : List (ℚ × ℚ) → ℚ → ℚ)
    (data : List (ℚ × ℚ)) (x v : ℚ)
    (h : (Iso.fresh.fitWith pava data).predict x = Except.ok v) :
    0 ≤ v ∧ v ≤ 1 := by
  unfold Iso.fresh Iso.fitWith Iso.predict at h
  simp only at h
  have hv : v = max 0 (min 1 (pava data x)) := (Except.ok.inj h).symm
  rw [hv]
  exact clamp01_bounds (pava data x)

/-- A concrete prop-market observation with decimal odds 0.5, i.e. an
implied probability of 2 — outside [0,1]. -/
def betBad : UnifiedBet :=
  ⟨"e1", "nba", "Over 20.5", "player_points", .PROP, none, "draftkings",
    1/2, 0, true, some "Over 20.5"⟩

/-- C5 counterexample: for the prop plugin, an observation with
decimal odds 0.5 (implied probability 2) yields
`p_fair_consensus = 2 > 1`, so the claim's unrestricted "for all
inputs" bound fails. -/
theorem c5_counterexample :
    ¬ (propCalculate betBad [] ctxE).p_fair_consensus ≤ 1 := by
  have h : (propCalculate betBad [] ctxE).p_fair_consensus = ((2 : ℚ) : ℝ) := by
    norm_num [propCalculate, lookupInjury, betBad, ctxE, UnifiedBet.implied_prob]
    intro h1 h2
    rcases h2 with h | h <;> simp at h
  rw [h]
  norm_num

/-- C5 amended: the main-market plugin's `p_fair_consensus` and
`player_availability_score` lie in [0,1] for all inputs; the prop
plugin's `player_availability_score` lies in [0,1] for all inputs and
its `p_fair_consensus` lies in [0,1] for every observation whose
implied probability is at most 1 (equivalently, whose odds are in the
documented domain `odds_decimal > 1` or nonpositive); every value the
fitted hierarchical calibrator returns lies in [0,1]. -/
theorem c5_bounds :
    (∀ bet history ctx,
      (0 ≤ (mainCalculate bet history ctx).p_fair_consensus ∧
        (mainCalculate bet history ctx).p_fair_consensus ≤ 1) ∧
      0 ≤ (mainCalculate bet history ctx).player_availability_score ∧
      (mainCalculate bet history ctx).player_availability_score ≤ 1) ∧
    (∀ bet history ctx,
      (0 ≤ (propCalculate bet history ctx).player_availability_score ∧
        (propCalculate bet history ctx).player_availability_score ≤ 1) ∧
      (bet.implied_prob ≤ 1 →
        0 ≤ (propCalculate bet history ctx).p_fair_consensus ∧
        (propCalculate bet history ctx).p_fair_consensus ≤ 1)) ∧
    (∀ pava df row v,
      (HierarchicalCalibrator.init.fit pava df).predict row = Except.ok v →
      0 ≤ v ∧ v ≤ 1) := by
  refine ⟨fun bet history ctx => ?_, fun bet history ctx => ?_,
    fun pava df row v h => ?_⟩
  · exact ⟨⟨(to_prob_pos _).le, (to_prob_lt_one _).le⟩,
      zero_le_one, le_refl 1⟩
  · refine ⟨⟨(to_prob_pos _).le, (to_prob_lt_one _).le⟩, fun him => ?_⟩
    have him' : ((bet.implied_prob : ℚ) : ℝ) ≤ 1 := by
      exact_mod_cast him
    have h0 : (0:ℝ) ≤ ((bet.implied_prob : ℚ) : ℝ) := by
      exact_mod_cast implied_prob_nonneg bet
    unfold propCalculate
    simp only
    split
    · constructor
      · exact mul_nonneg h0 (shrink_factor_bounds _).1
      · exact mul_le_one₀ him' (shrink_factor_bounds _).1 (shrink_factor_bounds _).2
    · exact ⟨h0, him'⟩
  · unfold HierarchicalCalibrator.predict at h
    simp only at h
    rcases hlk : ((HierarchicalCalibrator.init.fit pava df).calibrators).lookup
        (bucketKey row.sport_key row.market_family) with _ | iso
    · rw [hlk] at h
      have hg : (HierarchicalCalibrator.init.fit pava df).global_calibrator =
          Iso.fresh.fitWith pava (toXY df) := rfl
      rw [hg] at h
      exact fitted_predict_bounds pava (toXY df) row.p_fair_sharp v h
    · rw [hlk] at h
      obtain ⟨kv, hmem, hv⟩ :=
        lookup_some_mem _ (bucketKey row.sport_key row.market_family) iso hlk
      obtain ⟨data, hdata⟩ := fit_entry_clipped pava df kv hmem
      rw [hv] at hdata
      rw [hdata] at h
      exact fitted_predict_bounds pava data row.p_fair_sharp v h

/-- The identity stand-in for the external isotonic fit routine, used
only to instantiate witnesses. -/
def pavaId : List (ℚ × ℚ) → ℚ → ℚ := fun _ x => x

/-- A concrete calibrator training row. -/
def rowW : CalRow := ⟨"s", "m", 1/2, 1⟩

/-- C5 witness: `c5_bounds` applied at concrete inputs. -/
theorem c5_bounds_witness :
    betA.implied_prob ≤ 1 ∧
    (0 ≤ (propCalculate betA [] ctxE).p_fair_consensus ∧
      (propCalculate betA [] ctxE).p_fair_consensus ≤ 1) ∧
    ((HierarchicalCalibrator.init.fit pavaId [rowW]).predict rowW =
      Except.ok (1/2)) ∧
    (0 ≤ (1/2 : ℚ) ∧ (1/2 : ℚ) ≤ 1) :=
  ⟨by norm_num [betA, UnifiedBet.implied_prob],
   (c5_bounds.2.1 betA [] ctxE).2 (by norm_num [betA, UnifiedBet.implied_prob]),
   by norm_num [HierarchicalCalibrator.init, HierarchicalCalibrator.fit,
     HierarchicalCalibrator.predict, groupPairs, groupRows, bucketStep,
     bucketKey, rowW, pavaId, toXY, Iso.fresh, Iso.fitWith, Iso.predict,
     List.lookup],
   c5_bounds.2.2 pavaId [rowW] rowW (1/2)
     (by norm_num [HierarchicalCalibrator.init, HierarchicalCalibrator.fit,
       HierarchicalCalibrator.predict, groupPairs, groupRows, bucketStep,
       bucketKey, rowW, pavaId, toXY, Iso.fresh, Iso.fitWith, Iso.predict,
       List.lookup])⟩

/-! ### C3: prop plugin under a Doubtful status -/

/-- A concrete prop observation: decimal odds 2.00 on an Over
selection. -/
def betOver : UnifiedBet :=
  ⟨"e1", "nba", "Over 20.5", "player_points", .PROP, none, "draftkings",
    2, 0, true, some "Over 20.5"⟩

/-- An event context whose injury report marks the player of `betOver`
as Doubtful with source reliability 0.9. -/
def ctxDoubt : EventContext :=
  ⟨[], [("Over 20.5", "Doubtful", 9/10)]⟩

/-- C3 counterexample: with status Doubtful and an Over selection the
prop plugin leaves `p_fair_consensus` at the raw implied probability;
it does NOT return `implied_prob * (0.8 + 0.2 * sigmoid(-1))` as the
claim states, because the shrinkage branch only fires for
Questionable or Limited Practice. -/
theorem c3_counterexample :
    (propCalculate betOver [] ctxDoubt).p_fair_consensus ≠
      ((betOver.implied_prob : ℚ) : ℝ) * (4/5 + 1/5 * to_prob (-1)) := by
  have hfair : (propCalculate betOver [] ctxDoubt).p_fair_consensus =
      ((betOver.implied_prob : ℚ) : ℝ) := by
    norm_num [propCalculate, lookupInjury, betOver, ctxDoubt]
    intro h1 h2
    rcases h2 with h | h <;> simp at h
  have himp : ((betOver.implied_prob : ℚ) : ℝ) = 1/2 := by
    norm_num [betOver, UnifiedBet.implied_prob]
  rw [hfair, himp]
  have h1 := to_prob_lt_one (-1)
  intro heq
  nlinarith

/-- C3 amended: for a prop observation whose injury record gives
status Doubtful with reliability 0.9 and whose selection contains
"Over", the plugin returns `p_availability = sigmoid(3 - 4) =
sigmoid(-1)` and `context_uncertainty_penalty = (1 - sigmoid(-1)) *
0.9`, but `p_fair_consensus` (the adjusted probability) equals the
raw implied probability unchanged: the Over-shrinkage branch applies
only to Questionable or Limited Practice statuses, not Doubtful. -/
theorem c3_doubtful_over (bet : UnifiedBet) (history : List UnifiedBet)
    (ctx : EventContext)
    (_hover : containsStr bet.selection "Over" = true)
    (hinj : lookupInjury ctx.injuries bet.player_name = ("Doubtful", 9/10)) :
    (propCalculate bet history ctx).player_availability_score =
      to_prob (-1) ∧
    (propCalculate bet history ctx).p_fair_consensus =
      ((bet.implied_prob : ℚ) : ℝ) ∧
    (propCalculate bet history ctx).context_uncertainty_penalty =
      (1 - to_prob (-1)) * (9/10) := by
  have hq : ¬("Doubtful" = "Questionable") := by decide
  have hl : ¬("Doubtful" = "Limited Practice") := by decide
  unfold propCalculate
  rw [hinj]
  norm_num [hq, hl]

/-- C3 witness: `c3_doubtful_over` at the concrete Doubtful Over
observation. -/
theorem c3_doubtful_over_witness :
    containsStr betOver.selection "Over" = true ∧
    lookupInjury ctxDoubt.injuries betOver.player_name = ("Doubtful", 9/10) ∧
    (propCalculate betOver [] ctxDoubt).p_fair_consensus =
      ((betOver.implied_prob : ℚ) : ℝ) :=
  ⟨by decide, by norm_num [lookupInjury, ctxDoubt, betOver],
   (c3_doubtful_over betOver [] ctxDoubt (by decide)
     (by norm_num [lookupInjury, ctxDoubt, betOver])).2.1⟩

/-! ### C4: velocity after two observations -/

/-- Any emitted record whose instrument buffer held at most one prior
observation has velocity 0, whichever plugin runs. -/
lemma step_velocity_zero (ctx : ContextData) (buf : Buffers) (r : Row)
    (hshort : (buf (instrumentKey (mkBet r))).length ≤ 1) :
    (stepSnap ctx buf r).2.velocity = 0 := by
  unfold stepSnap mkRecord
  rcases hfam : (mkBet r).market_family with _ | _ | _ | _ <;>
    simp only [calcFeatures, hfam] <;>
    first
    | (unfold propCalculate; simp only)
    | (unfold mainCalculate
       simp only [penult_eq_none_of_short _ hshort])

/-- After one engine step, every buffer still holds at most
max(previous length + 1) entries; in particular a buffer of length at
most 1 stays at most 1 except at the stepped key, which reaches at
most its old length + 1. -/
lemma step_buffer_le (ctx : ContextData) (buf : Buffers) (r : Row) (k : String)
    (hempty : ∀ s, (buf s).length ≤ 0) :
    ((stepSnap ctx buf r).1 k).length ≤ 1 := by
  unfold stepSnap updateBuf evictAppend
  simp only
  split
  · split
    · simp_all
    · next h2 =>
      have := hempty (instrumentKey (mkBet r))
      simp_all
  · exact le_trans (hempty k) (by norm_num)

/-- The velocities of a two-row run from a fresh engine are both 0:
at the first observation the buffer is empty, at the second it holds
a single prior observation, and the main plugin requires at least two
buffered observations before computing a velocity (the prop plugin
always reports 0). -/
lemma velocities_two_rows (ctx : ContextData) (r1 r2 : Row)
    (hts : r1.timestamp ≤ r2.timestamp) :
    (process_snapshots ctx emptyBuffers [r1, r2]).2.map
      (fun rec => rec.velocity) = [0, 0] := by
  have hsort : List.insertionSort (fun a b : Row => a.timestamp ≤ b.timestamp)
      [r1, r2] = [r1, r2] := by
    simp [List.insertionSort, List.orderedInsert, hts]
  unfold process_snapshots
  rw [hsort]
  have h1 : (stepSnap ctx emptyBuffers r1).2.velocity = 0 :=
    step_velocity_zero ctx emptyBuffers r1 (by simp [emptyBuffers])
  have h2 : (stepSnap ctx (stepSnap ctx emptyBuffers r1).1 r2).2.velocity = 0 :=
    step_velocity_zero ctx (stepSnap ctx emptyBuffers r1).1 r2
      (step_buffer_le ctx emptyBuffers r1 _ (fun s => by simp [emptyBuffers]))
  simp [processRows, h1, h2]

/-- C4 amended: when the feature engine processes exactly two
observations of the same instrument key from a fresh state, the
record emitted for the second observation has velocity 0 — not
`logit(p2) − logit(p1)` — because the plugin sees only one buffered
prior observation and the velocity branch requires two.  (The first
record's velocity is 0 as well.) -/
theorem c4_second_velocity_zero (ctx : ContextData) (r1 r2 : Row)
    (hts : r1.timestamp ≤ r2.timestamp)
    (_hkey : instrumentKey (mkBet r1) = instrumentKey (mkBet r2)) :
    (process_snapshots ctx emptyBuffers [r1, r2]).2.map
      (fun rec => rec.velocity) = [0, 0] :=
  velocities_two_rows ctx r1 r2 hts

/-- First concrete snapshot row of the C4 scenario: odds 2.00
(implied 0.50) at time 0. -/
def rowC4a : Row := ⟨"e1", some "nba", "Home", "h2h", none, "draftkings", 2, 0⟩

/-- Second concrete snapshot row of the C4 scenario: odds 20/11
(implied 0.55) one hour (3600 s) later, same instrument. -/
def rowC4b : Row :=
  ⟨"e1", some "nba", "Home", "h2h", none, "draftkings", 20/11, 3600⟩

/-- C4 witness: `c4_second_velocity_zero` at the concrete two-snapshot
scenario (implied 0.50 then 0.55, one hour apart). -/
theorem c4_second_velocity_zero_witness :
    rowC4a.timestamp ≤ rowC4b.timestamp ∧
    instrumentKey (mkBet rowC4a) = instrumentKey (mkBet rowC4b) ∧
    (process_snapshots emptyContext emptyBuffers [rowC4a, rowC4b]).2.map
      (fun rec => rec.velocity) = [0, 0] :=
  ⟨by norm_num [rowC4a, rowC4b], by decide,
   c4_second_velocity_zero emptyContext rowC4a rowC4b
     (by norm_num [rowC4a, rowC4b]) (by decide)⟩

/-- C4 counterexample: in the concrete two-snapshot scenario the
second record's velocity is 0, whereas the claim predicts the nonzero
value `logit(0.55) − logit(0.50)`. -/
theorem c4_counterexample :
    (process_snapshots emptyContext emptyBuffers [rowC4a, rowC4b]).2.map
      (fun rec => rec.velocity) ≠
      [0, to_logit ((11:ℝ)/20) - to_logit ((1:ℝ)/2)] := by
  have hz : (process_snapshots emptyContext emptyBuffers [rowC4a, rowC4b]).2.map
      (fun rec => rec.velocity) = [0, 0] :=
    velocities_two_rows emptyContext rowC4a rowC4b (by norm_num [rowC4a, rowC4b])
  rw [hz]
  have h12 : to_logit ((1:ℝ)/2) = 0 := by
    unfold to_logit
    rw [min_eq_right (by norm_num), max_eq_right (by norm_num)]
    norm_num
  have h55 : to_logit ((11:ℝ)/20) = Real.log (11/9) := by
    unfold to_logit
    rw [min_eq_right (by norm_num), max_eq_right (by norm_num)]
    norm_num
  have hpos : 0 < Real.log (11/9) := Real.log_pos (by norm_num)
  intro h
  rw [h12, h55, sub_zero] at h
  have h4 := (List.cons.inj h).2
  have h5 := (List.cons.inj h4).1
  linarith

/-! ### C7: history buffer invariant -/

/-- One engine step keeps every buffer at length at most 5. -/
lemma step_preserves_len (ctx : ContextData) (buf : Buffers) (r : Row)
    (h : ∀ k, (buf k).length ≤ 5) :
    ∀ k, ((stepSnap ctx buf r).1 k).length ≤ 5 := by
  intro k
  unfold stepSnap updateBuf
  simp only
  split
  · unfold evictAppend
    split
    · next hlen =>
      have hb := h (instrumentKey (mkBet r))
      simp only [List.length_drop, List.length_append, List.length_singleton]
      omega
    · next hlen =>
      simp only [List.length_append, List.length_singleton] at hlen ⊢
      omega
  · exact h k

/-- Iterating the engine over any row sequence keeps every buffer at
length at most 5. -/
lemma processRows_preserves_len (ctx : ContextData) :
    ∀ (rows : List Row) (buf : Buffers),
      (∀ k, (buf k).length ≤ 5) →
      ∀ k, ((processRows ctx buf rows).1 k).length ≤ 5 := by
  intro rows
  induction rows with
  | nil =>
    intro buf h k
    exact h k
  | cons r rs ih =>
    intro buf h k
    simp only [processRows]
    exact ih _ (step_preserves_len ctx buf r h) k

/-- The buffer update of one step, in eviction-shape form: append the
new observation at the end; when the buffer already held 5 entries,
drop the head — the OLDEST entry — first. -/
lemma evictAppend_shape (l : List UnifiedBet) (b : UnifiedBet)
    (h : l.length ≤ 5) :
    evictAppend l b = if l.length = 5 then l.tail ++ [b] else l ++ [b] := by
  unfold evictAppend
  simp only [List.length_append, List.length_singleton]
  by_cases h5 : l.length = 5
  · rw [if_pos (by omega), if_pos h5]
    rw [List.drop_append_of_le_length (by omega), List.drop_one]
  · rw [if_neg (by omega), if_neg h5]

/-- C7: (1) starting from any state whose buffers all hold at most 5
observations (in particular a fresh engine), after processing any row
sequence every per-instrument buffer still holds at most 5
observations — so the bound holds after every insertion; (2) one step
updates only the stepped instrument's buffer, appending the new
observation and evicting the oldest (head) entry exactly when the
buffer was full; (3) the features emitted for an observation are the
plugin applied to the buffer as it stood BEFORE that observation was
appended. -/
theorem c7_buffer_invariant :
    (∀ (ctx : ContextData) (rows : List Row) (buf : Buffers),
      (∀ k, (buf k).length ≤ 5) →
      ∀ k, ((process_snapshots ctx buf rows).1 k).length ≤ 5) ∧
    (∀ (ctx : ContextData) (buf : Buffers) (r : Row),
      (∀ k, (buf k).length ≤ 5) →
      ((stepSnap ctx buf r).1 (instrumentKey (mkBet r)) =
        (if (buf (instrumentKey (mkBet r))).length = 5 then
          (buf (instrumentKey (mkBet r))).tail ++ [mkBet r]
        else buf (instrumentKey (mkBet r)) ++ [mkBet r]) ∧
       ∀ k, k ≠ instrumentKey (mkBet r) → (stepSnap ctx buf r).1 k = buf k)) ∧
    (∀ (ctx : ContextData) (buf : Buffers) (r : Row),
      (stepSnap ctx buf r).2 =
        mkRecord (mkBet r)
          (calcFeatures (mkBet r).market_family (mkBet r)
            (buf (instrumentKey (mkBet r)))
            ⟨(ctx.live_odds.lookup (mkBet r).event_id).getD [],
             (ctx.injuries.lookup (mkBet r).event_id).getD []⟩)) := by
  refine ⟨?_, ?_, ?_⟩
  · intro ctx rows buf h k
    unfold process_snapshots
    exact processRows_preserves_len ctx _ buf h k
  · intro ctx buf r h
    constructor
    · have hkey : (stepSnap ctx buf r).1 (instrumentKey (mkBet r)) =
          evictAppend (buf (instrumentKey (mkBet r))) (mkBet r) := by
        unfold stepSnap updateBuf
        simp
      rw [hkey, evictAppend_shape _ _ (h _)]
    · intro k hk
      unfold stepSnap updateBuf
      simp only
      rw [if_neg hk]
  · intro ctx buf r
    rfl

/-- C7 witness: `c7_buffer_invariant` at a fresh engine and one
concrete row. -/
theorem c7_buffer_invariant_witness :
    (∀ k, ((emptyBuffers : Buffers) k).length ≤ 5) ∧
    (∀ k, ((process_snapshots emptyContext emptyBuffers [rowC4a]).1 k).length ≤ 5) ∧
    (stepSnap emptyContext emptyBuffers rowC4a).1 (instrumentKey (mkBet rowC4a)) =
      (if ((emptyBuffers : Buffers) (instrumentKey (mkBet rowC4a))).length = 5 then
        ((emptyBuffers : Buffers) (instrumentKey (mkBet rowC4a))).tail ++ [mkBet rowC4a]
      else (emptyBuffers : Buffers) (instrumentKey (mkBet rowC4a)) ++ [mkBet rowC4a]) :=
  ⟨fun _ => Nat.zero_le 5,
   c7_buffer_invariant.1 emptyContext [rowC4a] emptyBuffers (fun _ => Nat.zero_le 5),
   (c7_buffer_invariant.2.1 emptyContext emptyBuffers rowC4a
     (fun _ => Nat.zero_le 5)).1⟩

/-! ### C8: bucket fallback and key collisions -/

/-- Looking up a key absent from both halves of an append fails. -/
lemma lookup_append_none {β : Type} (l1 l2 : List (String × β)) (k : String)
    (h1 : l1.lookup k = none) (h2 : l2.lookup k = none) :
    (l1 ++ l2).lookup k = none := by
  induction l1 with
  | nil => simpa using h2
  | cons p l ih =>
    rw [List.cons_append, List.lookup]
    rw [List.lookup] at h1
    by_cases hk : (k == p.1) = true
    · rw [hk] at h1
      exact absurd h1 (by simp)
    · rw [Bool.not_eq_true] at hk
      rw [hk] at h1 ⊢
      exact ih h1

/-- If no group of more than `n` rows produces the key, the groupby
fold never inserts it. -/
lemma foldl_buckets_lookup_none (pava : List (ℚ × ℚ) → ℚ → ℚ) (n : ℕ)
    (df : List CalRow) :
    ∀ (ps : List (String × String)) (acc : List (String × Iso)) (key : String),
      acc.lookup key = none →
      (∀ p ∈ ps, (groupRows df p).length > n → bucketKey p.1 p.2 ≠ key) →
      (ps.foldl (bucketStep pava n df) acc).lookup key = none := by
  intro ps
  induction ps with
  | nil =>
    intro acc key hacc _
    exact hacc
  | cons p ps ih =>
    intro acc key hacc hps
    rw [List.foldl_cons]
    refine ih (bucketStep pava n df acc p) key ?_
      (fun q hq hql => hps q (List.mem_cons_of_mem p hq) hql)
    unfold bucketStep
    split
    · next hlen =>
      refine lookup_append_none acc _ key hacc ?_
      have hne : bucketKey p.1 p.2 ≠ key := hps p (List.mem_cons_self p ps) hlen
      rw [List.lookup, List.lookup]
      rw [beq_eq_false_iff_ne.mpr (Ne.symm hne)]
    · exact hacc

/-- A concrete calibrator row in a big bucket whose key string
collides with the small bucket below. -/
def rowBig : CalRow := ⟨"a_b", "c", 1/2, 1⟩

/-- A concrete calibrator row in a 1-row bucket. -/
def rowSmall : CalRow := ⟨"a", "b_c", 1/2, 0⟩

/-- Fifty-one rows of the ("a_b", "c") group followed by one row of the
("a", "b_c") group: the two groups share the key string "a_b_c". -/
def dfCollide : List CalRow := List.replicate 51 rowBig ++ [rowSmall]

/-- C8 counterexample: after fitting `dfCollide`, the
("a", "b_c") group has exactly one training row (at most 50), yet its
bucket key "a_b_c" DOES appear in the calibrators dictionary, because
the 51-row ("a_b", "c") group maps to the same concatenated key
string. -/
theorem c8_counterexample :
    (groupRows dfCollide ("a", "b_c")).length ≤ 50 ∧
    ((HierarchicalCalibrator.init.fit pavaId dfCollide).calibrators).lookup
      (bucketKey "a" "b_c") ≠ none := by
  constructor
  · decide
  · have hs : (((HierarchicalCalibrator.init.fit pavaId dfCollide).calibrators).lookup
        (bucketKey "a" "b_c")).isSome = true := by decide
    intro h
    rw [h] at hs
    exact absurd hs (by simp)

/-- C8 amended: after fit, a (sport, family) group with at most 50
rows never inserts its own key; provided additionally that no group
with more than 50 rows concatenates to the same key string (the
f-string key allows collisions such as ("a_b","c") vs ("a","b_c")),
the key is absent from the calibrators dictionary and predict on any
row of that group returns exactly the Global calibrator's
prediction. -/
theorem c8_bucket_fallback (pava : List (ℚ × ℚ) → ℚ → ℚ) (df : List CalRow)
    (s f : String) (row : CalRow)
    (_hsmall : (groupRows df (s, f)).length ≤ 50)
    (hnocol : ∀ p ∈ groupPairs df, (groupRows df p).length > 50 →
      bucketKey p.1 p.2 ≠ bucketKey s f)
    (hrow_s : row.sport_key = s) (hrow_f : row.market_family = f) :
    ((HierarchicalCalibrator.init.fit pava df).calibrators).lookup
      (bucketKey s f) = none ∧
    (HierarchicalCalibrator.init.fit pava df).predict row =
      (HierarchicalCalibrator.init.fit pava df).global_calibrator.predict
        row.p_fair_sharp := by
  have hnone : ((HierarchicalCalibrator.init.fit pava df).calibrators).lookup
      (bucketKey s f) = none := by
    show ((groupPairs df).foldl (bucketStep pava 50 df) []).lookup
      (bucketKey s f) = none
    exact foldl_buckets_lookup_none pava 50 df (groupPairs df) []
      (bucketKey s f) rfl hnocol
  refine ⟨hnone, ?_⟩
  unfold HierarchicalCalibrator.predict
  simp only
  rw [hrow_s, hrow_f, hnone]

/-- C8 witness: `c8_bucket_fallback` at a one-row training frame. -/
theorem c8_bucket_fallback_witness :
    (groupRows [rowW] ("s", "m")).length ≤ 50 ∧
    (∀ p ∈ groupPairs [rowW], (groupRows [rowW] p).length > 50 →
      bucketKey p.1 p.2 ≠ bucketKey "s" "m") ∧
    rowW.sport_key = "s" ∧ rowW.market_family = "m" ∧
    ((HierarchicalCalibrator.init.fit pavaId [rowW]).calibrators).lookup
      (bucketKey "s" "m") = none :=
  ⟨by decide, by decide, rfl, rfl,
   (c8_bucket_fallback pavaId [rowW] "s" "m" rowW (by decide) (by decide)
     rfl rfl).1⟩
